import Mathlib

/-!
A verification development for a trading-alert analysis program.

The program has two algorithmic cores, embedded shallowly here:

* `email_parser.py` — a pattern-based extractor pulling ticker symbols,
  typed price levels and strategic note lines out of raw email text
  (function `parse_with_regex`, modelled below as `parseWithRegex`).
* `stock_analyzer.py` — a cross-validation scorer combining an extracted
  recommendation with market data and technical indicators
  (`StockAnalyzer._cross_validate`, modelled as `crossValidate`, together
  with `_fallback_analysis`, `analyze_stock`, `_get_market_data` and
  `extract_tli_recommendation`).

Python floats are modelled as rationals (`ℚ`); all score arithmetic in the
source is integer arithmetic.  Python `dict.get` with a default is modelled
with `Option.getD`.  The source stores the flag list JSON-serialised; since
serialisation is injective on the lists produced here, records carry the
flag list itself.
-/

/-! ## Python-semantics helpers -/

/-- Python truthiness of an optional float: `None` and `0.0` are falsy. -/
def pyTruthy : Option ℚ → Bool
  | none => false
  | some x => x != 0

/-- Python `needle in hay` substring test on strings. -/
def pyIn (needle hay : String) : Bool := decide (needle.data <:+: hay.data)

/-- Python `str.lower` (the source only feeds it ASCII). -/
def pyLower (s : String) : String := s.toLower

/-- Python `str.upper` (the source only feeds it ASCII). -/
def pyUpper (s : String) : String := s.toUpper

/-- Python whitespace for `str.strip` / `\s`. -/
def isSpacePy (c : Char) : Bool :=
  c = ' ' || c = '\t' || c = '\n' || c = '\r' || c = '\x0b' || c = '\x0c'

/-- Python `str.strip()`. -/
def pyStrip (s : String) : String :=
  ⟨((s.data.dropWhile isSpacePy).reverse.dropWhile isSpacePy).reverse⟩

/-- Fractional decimal digits of `rem / den`, at most `fuel` of them. -/
def fracDigits : Nat → Nat → Nat → List Char
  | _, _, 0 => []
  | rem, den, fuel + 1 =>
    if rem = 0 then []
    else Char.ofNat (rem * 10 / den + 48) :: fracDigits (rem * 10 % den) den fuel

/-- Decimal rendering of a nonnegative rational, Python `str(float)` style:
integers get a trailing `.0`, otherwise the (terminating) fractional digits. -/
def pyFloatStrNN (q : ℚ) : String :=
  let n := q.num.toNat
  let d := q.den
  let frac := fracDigits (n % d) d 17
  toString (n / d) ++ "." ++ (if frac.isEmpty then "0" else ⟨frac⟩)

/-- Python `str(float)` / f-string rendering of a float, modelled on `ℚ`. -/
def pyFloatStr (q : ℚ) : String :=
  if q < 0 then "-" ++ pyFloatStrNN (-q) else pyFloatStrNN q

/-- Round to the nearest integer, ties to even (Python float formatting). -/
def roundHalfEven (x : ℚ) : Int :=
  let f := ⌊x⌋
  let r := x - f
  if r < 1 / 2 then f else if 1 / 2 < r then f + 1 else if f % 2 = 0 then f else f + 1

/-- Python `f"{q:.1f}"` for a nonnegative value. -/
def fmt1NN (q : ℚ) : String :=
  let t := (roundHalfEven (q * 10)).toNat
  toString (t / 10) ++ "." ++ toString (t % 10)

/-- Python `f"{q:.1f}"`. -/
def fmt1 (q : ℚ) : String :=
  if q < 0 then "-" ++ fmt1NN (-q) else fmt1NN q

/-- Python `f"{q:+.1f}"`. -/
def fmt1Signed (q : ℚ) : String :=
  if q < 0 then fmt1 q else "+" ++ fmt1 q

/-! ## Data model (`stock_analyzer.py`)

The dictionaries the analyzer passes around, as records.  Fields a provider
may leave unset are `Option`-valued, mirroring `None`. -/

/-- The market-data dictionary built by `StockAnalyzer._get_market_data`. -/
structure MarketData where
  current_price : Option ℚ
  price_change_pct : Option ℚ
  volume : Option Int
  market_cap : Option ℚ
  pe_ratio : Option ℚ
  high_52w : Option ℚ
  low_52w : Option ℚ
  deriving DecidableEq, Repr

/-- The all-`None` dictionary `_get_market_data` starts from. -/
def emptyMarketData : MarketData :=
  { current_price := none, price_change_pct := none, volume := none,
    market_cap := none, pe_ratio := none, high_52w := none, low_52w := none }

/-- The technical-indicator dictionary of `_get_technical_indicators`. -/
structure TechData where
  rsi : Option ℚ
  macd_signal : String
  ma_50 : Option ℚ
  ma_200 : Option ℚ
  trend : String
  deriving DecidableEq, Repr

/-- The initial (and no-price fallback) indicator dictionary: everything
unknown, `macd_signal` and `trend` both `"neutral"`. -/
def emptyTechData : TechData :=
  { rsi := none, macd_signal := "neutral", ma_50 := none, ma_200 := none,
    trend := "neutral" }

/-- The TLI recommendation dictionary (`tli_data`).  Keys may be absent, so
every field is optional; consumers apply `dict.get` defaults. -/
structure TliData where
  recommendation : Option String
  target_price : Option ℚ
  stop_loss : Option ℚ
  notes : Option String
  confidence : Option String
  deriving DecidableEq, Repr

/-- One extracted price level (an element of `parsed_data['levels']`). -/
structure Level where
  symbol : String
  type : String
  price : ℚ
  notes : String
  deriving DecidableEq, Repr

/-- The parsed-email dictionary consumed by `extract_tli_recommendation`. -/
structure ParsedData where
  levels : List Level
  notes : Option String
  deriving DecidableEq, Repr

/-- The analysis dictionary returned by `_cross_validate` and
`_fallback_analysis`. -/
structure Analysis where
  symbol : String
  tli_recommendation : String
  tli_target_price : Option ℚ
  tli_stop_loss : Option ℚ
  tli_notes : String
  tli_confidence : String
  current_price : Option ℚ
  price_change_pct : Option ℚ
  volume : Option Int
  market_cap : Option ℚ
  pe_ratio : Option ℚ
  rsi : Option ℚ
  macd_signal : String
  ma_50 : Option ℚ
  ma_200 : Option ℚ
  flags : List String
  agreement_score : Int
  overall_recommendation : String
  risk_level : String
  deriving DecidableEq, Repr

/-! ## The cross-validation scorer (`StockAnalyzer._cross_validate`)

The source accumulates a score starting at 50 and appends flags rule by
rule; each rule below returns its score delta and the flags it appends, in
source order. -/

/-- Rule 1, TLI analysis: `buy`/`long` add 15, `sell`/`short` subtract 15. -/
def recAdjust (tliRec : String) : Int :=
  if tliRec = "buy" ∨ tliRec = "long" then 15
  else if tliRec = "sell" ∨ tliRec = "short" then -15
  else 0

/-- Rule 2, price-target analysis (guarded by Python truthiness of both
`current_price` and `target_price`). -/
def targetAdjust (cp tp : Option ℚ) : Int × List String :=
  match cp, tp with
  | some c, some t =>
    if c ≠ 0 ∧ t ≠ 0 then
      let up := (t - c) / c * 100
      if up > 20 then (10, ["Strong upside potential: " ++ fmt1 up ++ "%"])
      else if up > 10 then (5, [])
      else if up < -10 then (-10, ["Price above target by " ++ fmt1 |up| ++ "%"])
      else (0, [])
    else (0, [])
  | _, _ => (0, [])

/-- Rule 3, RSI analysis.  The source guard is `if rsi:`, Python truthiness,
so the whole rule is skipped when RSI is `None` **or exactly 0.0**. -/
def rsiAdjust (rsi : Option ℚ) : Int × List String :=
  match rsi with
  | some r =>
    if r ≠ 0 then
      if r < 30 then (10, ["RSI indicates oversold conditions (bullish)"])
      else if r > 70 then (-10, ["RSI indicates overbought conditions (bearish)"])
      else if 40 ≤ r ∧ r ≤ 60 then (5, [])
      else (0, [])
    else (0, [])
  | none => (0, [])

/-- Rule 4, moving-average analysis. -/
def maAdjust (cp ma50 : Option ℚ) : Int × List String :=
  match cp, ma50 with
  | some c, some m =>
    if c ≠ 0 ∧ m ≠ 0 then
      if c > m then (5, [])
      else (-5, ["Price below 50-day MA (bearish)"])
    else (0, [])
  | _, _ => (0, [])

/-- Rule 5, MACD-style signal. -/
def macdAdjust (macd tliRec : String) : Int × List String :=
  if macd = "bullish" then (5, [])
  else if macd = "bearish" then (-5, [])
  else if macd = "oversold" ∧ (tliRec = "buy" ∨ tliRec = "long") then
    (8, ["Technical oversold aligns with TLI buy signal"])
  else if macd = "overbought" ∧ (tliRec = "buy" ∨ tliRec = "long") then
    (-8, ["WARNING: Overbought conditions conflict with buy signal"])
  else (0, [])

/-- Rule 6, risk/reward analysis. -/
def rrAdjust (cp tp sl : Option ℚ) : Int × List String :=
  match cp, tp, sl with
  | some c, some t, some s =>
    if c ≠ 0 ∧ t ≠ 0 ∧ s ≠ 0 then
      let risk := c - s
      if risk > 0 then
        let rr := (t - c) / risk
        if rr ≥ 3 then (10, ["Excellent risk/reward ratio: " ++ fmt1 rr ++ ":1"])
        else if rr ≥ 2 then (5, ["Good risk/reward ratio: " ++ fmt1 rr ++ ":1"])
        else if rr < 1 then (-10, ["WARNING: Poor risk/reward ratio: " ++ fmt1 rr ++ ":1"])
        else (0, [])
      else (0, [])
    else (0, [])
  | _, _, _ => (0, [])

/-- Rule 7, volatility check: final `risk_level` and its flag (no score
change). -/
def volatilityCheck (pc : Option ℚ) : String × List String :=
  match pc with
  | some p =>
    if p ≠ 0 then
      if |p| > 10 then ("high", ["High volatility: " ++ fmt1Signed p ++ "% today"])
      else if |p| > 5 then ("medium-high", [])
      else ("medium", [])
    else ("medium", [])
  | none => ("medium", [])

/-- Final classification of the accumulated score. -/
def classifyScore (score : Int) : String :=
  if score ≥ 75 then "strong_buy"
  else if score ≥ 60 then "buy"
  else if score ≥ 45 then "hold"
  else if score ≥ 30 then "sell"
  else "strong_sell"

/-- The accumulated score of `_cross_validate` (starts at the neutral 50). -/
def crossScore (tli : TliData) (market : MarketData) (tech : TechData) : Int :=
  let tliRec := pyLower (tli.recommendation.getD "hold")
  50 + recAdjust tliRec
    + (targetAdjust market.current_price tli.target_price).1
    + (rsiAdjust tech.rsi).1
    + (maAdjust market.current_price tech.ma_50).1
    + (macdAdjust tech.macd_signal tliRec).1
    + (rrAdjust market.current_price tli.target_price tli.stop_loss).1

/-- `StockAnalyzer._cross_validate`. -/
def crossValidate (symbol : String) (tli : TliData) (market : MarketData)
    (tech : TechData) : Analysis :=
  let tliRec := pyLower (tli.recommendation.getD "hold")
  let ta := targetAdjust market.current_price tli.target_price
  let ra := rsiAdjust tech.rsi
  let ma := maAdjust market.current_price tech.ma_50
  let mc := macdAdjust tech.macd_signal tliRec
  let rr := rrAdjust market.current_price tli.target_price tli.stop_loss
  let vol := volatilityCheck market.price_change_pct
  let score := crossScore tli market tech
  { symbol := symbol
    tli_recommendation := tli.recommendation.getD "hold"
    tli_target_price := tli.target_price
    tli_stop_loss := tli.stop_loss
    tli_notes := tli.notes.getD ""
    tli_confidence := tli.confidence.getD "medium"
    current_price := market.current_price
    price_change_pct := market.price_change_pct
    volume := market.volume
    market_cap := market.market_cap
    pe_ratio := market.pe_ratio
    rsi := tech.rsi
    macd_signal := tech.macd_signal
    ma_50 := tech.ma_50
    ma_200 := tech.ma_200
    flags := ta.2 ++ ra.2 ++ ma.2 ++ mc.2 ++ rr.2 ++ vol.2
    agreement_score := max 0 (min 100 score)
    overall_recommendation := classifyScore score
    risk_level := vol.1 }

/-- `StockAnalyzer._fallback_analysis`: the record returned when external
data fetching raised. -/
def fallbackAnalysis (symbol : String) (tli : TliData) : Analysis :=
  { symbol := symbol
    tli_recommendation := tli.recommendation.getD "hold"
    tli_target_price := tli.target_price
    tli_stop_loss := tli.stop_loss
    tli_notes := tli.notes.getD ""
    tli_confidence := tli.confidence.getD "medium"
    current_price := none
    price_change_pct := none
    volume := none
    market_cap := none
    pe_ratio := none
    rsi := none
    macd_signal := "neutral"
    ma_50 := none
    ma_200 := none
    flags := ["External data unavailable - TLI analysis only"]
    agreement_score := 50
    overall_recommendation := tli.recommendation.getD "hold"
    risk_level := "medium" }

/-- `StockAnalyzer.analyze_stock`.  The `try` body fetches market data and
technical indicators and then cross-validates; its outcome is passed in as
an `Except` value (`Except.error` models any exception raised by the data
steps, which the bare `except` catches). -/
def analyzeStock (symbol : String) (tli : TliData)
    (fetched : Except Unit (MarketData × TechData)) : Analysis :=
  match fetched with
  | Except.ok (m, t) => crossValidate symbol tli m t
  | Except.error _ => fallbackAnalysis symbol tli

/-! ## The market-data aggregator (`StockAnalyzer._get_market_data`)

Each provider's network call is modelled by the data its attempted call
supplies: `none` covers "no key configured", a non-200 response or a raised
exception; `some` carries the parsed response fields. -/

/-- A successful non-empty Alpha Vantage `Global Quote`: the three parsed
assignments (note `float(quote.get('05. price', 0))` always yields a
number, even `0.0`, never `None`). -/
structure AVData where
  price : ℚ
  changePct : ℚ
  volume : Int
  deriving DecidableEq, Repr

/-- A successful Finnhub quote response; individual JSON keys may be
missing, and missing keys are assigned as `None`. -/
structure FinnQuote where
  c : Option ℚ
  dp : Option ℚ
  h : Option ℚ
  l : Option ℚ
  deriving DecidableEq, Repr

/-- A successful Finnhub metric response. -/
structure FinnMetric where
  pe : Option ℚ
  mcap : Option ℚ
  deriving DecidableEq, Repr

/-- The two Finnhub calls made inside one guarded block. -/
structure FinnData where
  quote : Option FinnQuote
  metric : Option FinnMetric
  deriving DecidableEq, Repr

/-- A successful Yahoo chart response (`meta` fields). -/
structure YahooData where
  price : Option ℚ
  prevClose : Option ℚ
  volume : Option Int
  deriving DecidableEq, Repr

/-- `StockAnalyzer._get_market_data`.  Alpha Vantage is tried first;
Finnhub only when the price so far is falsy (`None` or `0.0`); Yahoo only
when the price is still falsy.  A provider that runs assigns every field it
touches, even with `None`.  The Yahoo block models the partial assignment
of the source `try`: `current_price` is set first, and the change/volume
assignments are skipped when computing the change percent would raise
(`None` price or zero previous close). -/
def getMarketData (av : Option AVData) (fh : Option FinnData)
    (yh : Option YahooData) : MarketData :=
  let d := emptyMarketData
  let d := match av with
    | some a =>
      { d with current_price := some a.price, price_change_pct := some a.changePct,
               volume := some a.volume }
    | none => d
  let d := if pyTruthy d.current_price then d else
    match fh with
    | some f =>
      let d := match f.quote with
        | some q =>
          { d with current_price := q.c, price_change_pct := q.dp,
                   high_52w := q.h, low_52w := q.l }
        | none => d
      match f.metric with
      | some m => { d with pe_ratio := m.pe, market_cap := m.mcap }
      | none => d
    | none => d
  if pyTruthy d.current_price then d else
    match yh with
    | some y =>
      let d := { d with current_price := y.price }
      match y.price with
      | none => d
      | some cp =>
        let pc := y.prevClose.getD cp
        if pc = 0 then d
        else { d with price_change_pct := some ((cp - pc) / pc * 100),
                      volume := y.volume }
    | none => d

/-- Modelled from the spec (§3 MarketSnapshot / §4.6): the merge policy the
spec describes — try providers in priority order and keep, per field, the
first non-null value any provider supplied.  This is the comparison
definition for the refinement claim about `_get_market_data`; the real
merge is `getMarketData` above. -/
def marketMergeSpec (av : Option AVData) (fh : Option FinnData)
    (yh : Option YahooData) : MarketData :=
  let avP : Option ℚ := av.map (·.price)
  let avC : Option ℚ := av.map (·.changePct)
  let avV : Option Int := av.map (·.volume)
  let fhQ := fh.bind (·.quote)
  let fhM := fh.bind (·.metric)
  let yhP := yh.bind (·.price)
  let yhC : Option ℚ := yh.bind fun y =>
    y.price.bind fun cp =>
      let pc := y.prevClose.getD cp
      if pc = 0 then none else some ((cp - pc) / pc * 100)
  let firstQ : List (Option ℚ) → Option ℚ := fun xs => (xs.filterMap id).head?
  let firstZ : List (Option Int) → Option Int := fun xs => (xs.filterMap id).head?
  { current_price := firstQ [avP, fhQ.bind (·.c), yhP]
    price_change_pct := firstQ [avC, fhQ.bind (·.dp), yhC]
    volume := firstZ [avV, yh.bind (·.volume)]
    market_cap := firstQ [fhM.bind (·.mcap)]
    pe_ratio := firstQ [fhM.bind (·.pe)]
    high_52w := firstQ [fhQ.bind (·.h)]
    low_52w := firstQ [fhQ.bind (·.l)] }

/-! ## The recommendation resolver (`extract_tli_recommendation`) -/

/-- The buy keyword family. -/
def buyWords : List String := ["buy", "long", "entry", "bullish", "accumulate"]

/-- The sell keyword family. -/
def sellWords : List String := ["sell", "short", "exit", "bearish", "reduce"]

/-- The wait keyword family. -/
def waitWords : List String := ["wait", "watch", "monitor"]

/-- `any(word in notes_lower for word in ws)`. -/
def anyIn (ws : List String) (s : String) : Bool := ws.any fun w => pyIn w s

/-- The per-level body of the target/stop extraction loop. -/
def levelStep (acc : TliData) (l : Level) : TliData :=
  let lt := pyLower l.type
  if lt = "target" ∨ lt = "pt" then { acc with target_price := some l.price }
  else if lt = "stop_loss" ∨ lt = "stop" then { acc with stop_loss := some l.price }
  else acc

/-- `extract_tli_recommendation`. -/
def extractTliRecommendation (parsed : ParsedData) (symbol : String) : TliData :=
  let notes := parsed.notes.getD ""
  let init : TliData :=
    { recommendation := some "hold", target_price := none, stop_loss := none,
      notes := some notes, confidence := some "medium" }
  let lvls := parsed.levels.filter fun l => l.symbol = symbol
  let t := lvls.foldl levelStep init
  let nl := pyLower notes
  if anyIn buyWords nl then
    let conf := if pyIn "strong" nl || pyIn "aggressive" nl then some "high"
                else t.confidence
    { t with recommendation := some "buy", confidence := conf }
  else if anyIn sellWords nl then { t with recommendation := some "sell" }
  else if anyIn waitWords nl then { t with recommendation := some "wait" }
  else t

/-! ## A small backtracking regex engine

Just enough of Python `re` semantics for the source's patterns: single
character classes, literals (optionally case-insensitive), concatenation,
alternation, a greedy option, lazy/greedy star and greedy plus over a
character class, greedy bounded repetition over a class, capture groups
and word boundaries.  `reRun` enumerates every way a pattern can match a
prefix of the input, in Python's backtracking preference order, so the
head of the list is the match Python's engine reports.  `findIter` scans
match positions left to right and resumes after each match, as
`re.finditer` does. -/

/-- Regular expressions over characters, as used by the source patterns. -/
inductive RE where
  | eps : RE
  | ch (p : Char → Bool) : RE
  | cat (a b : RE) : RE
  | alt (a b : RE) : RE
  | quesG (a : RE) : RE
  | starL (p : Char → Bool) : RE
  | starG (p : Char → Bool) : RE
  | plusG (p : Char → Bool) : RE
  | rep (p : Char → Bool) (mn mx : Nat) : RE
  | grp (a : RE) : RE
  | wb : RE

/-- Python `\w` (ASCII inputs). -/
def isWordChar (c : Char) : Bool := c.isAlpha || c.isDigit || c = '_'

/-- `isWordChar` on the optional character next to a position boundary. -/
def isWordCharOpt : Option Char → Bool
  | none => false
  | some c => isWordChar c

/-- All states reachable by consuming `0, 1, 2, …` leading characters
satisfying `p`, in that (lazy) order, each with the count consumed and the
last character consumed so far. -/
def lazyTakes (p : Char → Bool) : Option Char → List Char → List (Nat × Option Char × List Char)
  | pv, [] => [(0, pv, [])]
  | pv, c :: t =>
    (0, pv, c :: t) ::
      (if p c then (lazyTakes p (some c) t).map (fun r => (r.1 + 1, r.2.1, r.2.2)) else [])

/-- Run a pattern against the input suffix `s`, where `pv` is the character
just before `s` (for word boundaries).  Returns each possible outcome as
(last consumed character, remaining suffix, captured groups), in Python's
backtracking preference order. -/
def reRun : RE → Option Char → List Char → List (Option Char × List Char × List (List Char))
  | .eps, pv, s => [(pv, s, [])]
  | .ch p, _, s =>
    match s with
    | [] => []
    | c :: t => if p c then [(some c, t, [])] else []
  | .cat a b, pv, s =>
    (reRun a pv s).flatMap fun r =>
      (reRun b r.1 r.2.1).map fun r2 => (r2.1, r2.2.1, r.2.2 ++ r2.2.2)
  | .alt a b, pv, s => reRun a pv s ++ reRun b pv s
  | .quesG a, pv, s => reRun a pv s ++ [(pv, s, [])]
  | .starL p, pv, s => (lazyTakes p pv s).map fun r => (r.2.1, r.2.2, [])
  | .starG p, pv, s => ((lazyTakes p pv s).map fun r => (r.2.1, r.2.2, [])).reverse
  | .plusG p, _, s =>
    match s with
    | [] => []
    | c :: t =>
      if p c then ((lazyTakes p (some c) t).map fun r => (r.2.1, r.2.2, [])).reverse
      else []
  | .rep p mn mx, pv, s =>
    (((lazyTakes p pv s).filter fun r => decide (mn ≤ r.1 ∧ r.1 ≤ mx)).map
      fun r => (r.2.1, r.2.2, [])).reverse
  | .grp a, pv, s =>
    (reRun a pv s).map fun r => (r.1, r.2.1, r.2.2 ++ [s.take (s.length - r.2.1.length)])
  | .wb, pv, s =>
    if isWordCharOpt pv != isWordCharOpt s.head? then [(pv, s, [])] else []

/-- Python's preferred match of a pattern at position `i` of `s`:
the end position and the captured groups. -/
def tryMatchAt (r : RE) (s : List Char) (i : Nat) : Option (Nat × List (List Char)) :=
  match reRun r ((s.take i).getLast?) (s.drop i) with
  | [] => none
  | m :: _ => some (i + ((s.drop i).length - m.2.1.length), m.2.2)

/-- The scan loop of `re.finditer`: leftmost matches, resuming after each
match (one position further for an empty match).  The fuel argument only
bounds the loop; `s.length + 1` is always enough since the position grows
at every step. -/
def findIterAux (r : RE) (s : List Char) : Nat → Nat → List (Nat × Nat × List (List Char))
  | _, 0 => []
  | i, fuel + 1 =>
    if i > s.length then []
    else
      match tryMatchAt r s i with
      | some (e, caps) => (i, e, caps) :: findIterAux r s (max (i + 1) e) fuel
      | none => findIterAux r s (i + 1) fuel

/-- `re.finditer`: (start, end, captures) of each match. -/
def findIter (r : RE) (s : List Char) : List (Nat × Nat × List (List Char)) :=
  findIterAux r s 0 (s.length + 1)

/-- `re.findall` for a pattern with one capture group. -/
def findallG1 (r : RE) (s : List Char) : List (List Char) :=
  (findIter r s).filterMap fun m => m.2.2.head?

/-- A case-sensitive literal character. -/
def litc (c : Char) : RE := .ch fun x => x = c

/-- A case-insensitive literal character (`re.IGNORECASE`). -/
def litci (c : Char) : RE := .ch fun x => x.toLower = c.toLower

/-- A case-sensitive literal string. -/
def lits (str : String) : RE := str.data.foldr (fun c r => .cat (litc c) r) .eps

/-- A case-insensitive literal string. -/
def litsci (str : String) : RE := str.data.foldr (fun c r => .cat (litci c) r) .eps

/-- Concatenation of a pattern list. -/
def catl (rs : List RE) : RE := rs.foldr .cat .eps

/-- Python `.` (anything but a newline). -/
def dotC (c : Char) : Bool := c != '\n'

/-- `\s+`. -/
def spPlus : RE := .plusG isSpacePy

/-- `.*?`. -/
def dotStarL : RE := .starL dotC

/-- `(\d+\.?\d*)` — the numeric capture group used by every level pattern. -/
def decCap : RE := .grp (catl [.plusG Char.isDigit, .quesG (litc '.'), .starG Char.isDigit])

/-! ## The regex fallback parser (`email_parser.parse_with_regex`) -/

/-- `r'\$([A-Z]{2,5})\b'` (no IGNORECASE). -/
def symRE : RE := catl [litc '$', .grp (.rep Char.isUpper 2 5), .wb]

/-- `rf'PT.*?(?:is|for\s+\d{4}.*?is)\s+\$(\d+\.?\d*)\b'`. -/
def ptRE : RE :=
  catl [litsci "PT", dotStarL,
    .alt (litsci "is") (catl [litsci "for", spPlus, .rep Char.isDigit 4 4, dotStarL, litsci "is"]),
    spPlus, litc '$', decCap, .wb]

/-- `rf'Wave\s+\d+.*?(?:target|moves)\s+(?:at|to)\s+\$(\d+\.?\d*)\b'`. -/
def waveRE : RE :=
  catl [litsci "Wave", spPlus, .plusG Char.isDigit, dotStarL,
    .alt (litsci "target") (litsci "moves"), spPlus, .alt (litsci "at") (litsci "to"),
    spPlus, litc '$', decCap, .wb]

/-- `r'0\.5\s+Fib.*?(?:at|level)\s+\$(\d+\.?\d*)'`. -/
def fib05RE : RE :=
  catl [litsci "0.5", spPlus, litsci "Fib", dotStarL, .alt (litsci "at") (litsci "level"),
    spPlus, litc '$', decCap]

/-- `r'0\.38\s+Fib'` (no capture group — contributes nothing). -/
def fib038RE : RE := catl [litsci "0.38", spPlus, litsci "Fib"]

/-- `r'0\.618?\s+Fib'` (no capture group — contributes nothing). -/
def fib0618RE : RE := catl [litsci "0.61", .quesG (litci '8'), spPlus, litsci "Fib"]

/-- `r'1\.618\s+Fib\s+at\s+\$(\d+\.?\d*)'`. -/
def fib1618RE : RE :=
  catl [litsci "1.618", spPlus, litsci "Fib", spPlus, litsci "at", spPlus, litc '$', decCap]

/-- `r'50\s+Day\s+MA.*?(?:at|hold\s+at)\s+\$(\d+\.?\d*)'`. -/
def ma50dRE : RE :=
  catl [litsci "50", spPlus, litsci "Day", spPlus, litsci "MA", dotStarL,
    .alt (litsci "at") (catl [litsci "hold", spPlus, litsci "at"]), spPlus, litc '$', decCap]

/-- `r'200\s+Day\s+MA.*?at\s+\$(\d+\.?\d*)'`. -/
def ma200dRE : RE :=
  catl [litsci "200", spPlus, litsci "Day", spPlus, litsci "MA", dotStarL, litsci "at",
    spPlus, litc '$', decCap]

/-- `r'50\s+WMA.*?(?:at|converted\s+to\s+support\s+at)\s+\$(\d+\.?\d*)'`. -/
def ma50wRE : RE :=
  catl [litsci "50", spPlus, litsci "WMA", dotStarL,
    .alt (litsci "at")
      (catl [litsci "converted", spPlus, litsci "to", spPlus, litsci "support", spPlus,
        litsci "at"]),
    spPlus, litc '$', decCap]

/-- `r'200\s+WMA\s+at\s+\$(\d+\.?\d*)'`. -/
def ma200wRE : RE :=
  catl [litsci "200", spPlus, litsci "WMA", spPlus, litsci "at", spPlus, litc '$', decCap]

/-- `rf'(?:buy\s+zone.*?range|range).*?between\s+\$(\d+\.?\d*).*?(?:and|to)\s+.*?\$(\d+\.?\d*)'`. -/
def rangeRE : RE :=
  catl [.alt (catl [litsci "buy", spPlus, litsci "zone", dotStarL, litsci "range"]) (litsci "range"),
    dotStarL, litsci "between", spPlus, litc '$', decCap, dotStarL,
    .alt (litsci "and") (litsci "to"), spPlus, dotStarL, litc '$', decCap]

/-- `rf'breakout\s+level\s+between\s+\$(\d+\.?\d*)\s*-\s*\$(\d+\.?\d*)'`. -/
def breakoutRE : RE :=
  catl [litsci "breakout", spPlus, litsci "level", spPlus, litsci "between", spPlus,
    litc '$', decCap, .starG isSpacePy, litc '-', .starG isSpacePy, litc '$', decCap]

/-- `rf'bounced?\s+from\s+\$(\d+\.?\d*)\s+to\s+\$(\d+\.?\d*)'`. -/
def bounceRE : RE :=
  catl [litsci "bounce", .quesG (litci 'd'), spPlus, litsci "from", spPlus, litc '$', decCap,
    spPlus, litsci "to", spPlus, litc '$', decCap]

/-- `rf'resistance\s+(?:back\s+)?up\s+to\s+\$(\d+\.?\d*)'`. -/
def resistanceRE : RE :=
  catl [litsci "resistance", spPlus, .quesG (catl [litsci "back", spPlus]), litsci "up",
    spPlus, litsci "to", spPlus, litc '$', decCap]

/-- `rf'high\s+of\s+\$(\d+\.?\d*)'`. -/
def highRE : RE := catl [litsci "high", spPlus, litsci "of", spPlus, litc '$', decCap]

/-- Numeric value of a digit string. -/
def digitsVal (cs : List Char) : Nat := cs.foldl (fun n c => n * 10 + (c.toNat - 48)) 0

/-- Split a character list on a separator character (Python `str.split`). -/
def splitOnChar (sep : Char) : List Char → List (List Char)
  | [] => [[]]
  | c :: t =>
    let r := splitOnChar sep t
    if c = sep then [] :: r
    else
      match r with
      | [] => [[c]]
      | x :: xs => (c :: x) :: xs

/-- Python `float(text)` on the shapes `\d+\.?\d*` can capture. -/
def parseDec (cs : List Char) : Option ℚ :=
  match splitOnChar '.' cs with
  | [ip] => if ip ≠ [] ∧ ip.all Char.isDigit then some (digitsVal ip) else none
  | [ip, fp] =>
    if ip ≠ [] ∧ ip.all Char.isDigit ∧ fp.all Char.isDigit then
      some ((digitsVal ip : ℚ) + (digitsVal fp : ℚ) / (10 ^ fp.length))
    else none
  | _ => none

/-- The `0.01 < price < 100000` bounds check applied to every capture. -/
def boundsOk (p : ℚ) : Bool := decide (1 / 100 < p) && decide (p < 100000)

/-- Python `match.group(0)` for a match spanning `[st, en)`. -/
def matchText (cs : List Char) (st en : Nat) : String := ⟨(cs.drop st).take (en - st)⟩

/-- Price-target levels (`PT` pattern). -/
def ptLevels (sym : String) (cs : List Char) : List Level :=
  (findIter ptRE cs).filterMap fun m =>
    (m.2.2.head?.bind parseDec).bind fun p =>
      if boundsOk p then
        some { symbol := sym, type := "target", price := p,
               notes := "PT: $" ++ pyFloatStr p }
      else none

/-- Wave-target levels. -/
def waveLevels (sym : String) (cs : List Char) : List Level :=
  (findIter waveRE cs).filterMap fun m =>
    (m.2.2.head?.bind parseDec).bind fun p =>
      if boundsOk p then
        some { symbol := sym, type := "target", price := p,
               notes := pyStrip (matchText cs m.1 m.2.1) }
      else none

/-- The `fib_patterns` table: pattern and level type; entries without a
capture group carry no type and are skipped by the loop. -/
def fibPatterns : List (RE × Option String) :=
  [(fib05RE, some "fib_0.5"), (fib038RE, none), (fib0618RE, none),
   (fib1618RE, some "fib_1.618"), (ma50dRE, some "ma_50d"), (ma200dRE, some "ma_200d"),
   (ma50wRE, some "ma_50w"), (ma200wRE, some "ma_200w")]

/-- Fibonacci / moving-average levels. -/
def fibLevels (sym : String) (cs : List Char) : List Level :=
  fibPatterns.flatMap fun pr =>
    match pr.2 with
    | some lt =>
      (findIter pr.1 cs).filterMap fun m =>
        (m.2.2.head?.bind parseDec).bind fun p =>
          if boundsOk p then
            some { symbol := sym, type := lt, price := p,
                   notes := pyStrip (matchText cs m.1 m.2.1) }
          else none
    | none => []

/-- The two `buy_zone` levels appended for one matched range phrase. -/
def rangeMatchLevels (sym : String) (p1 p2 : ℚ) : List Level :=
  if boundsOk p1 && boundsOk p2 then
    [{ symbol := sym, type := "buy_zone", price := min p1 p2,
       notes := "Buy Zone: $" ++ pyFloatStr (min p1 p2) ++ " - $" ++ pyFloatStr (max p1 p2) },
     { symbol := sym, type := "buy_zone", price := max p1 p2,
       notes := "Buy Zone: $" ++ pyFloatStr (min p1 p2) ++ " - $" ++ pyFloatStr (max p1 p2) }]
  else []

/-- Buy-zone / range levels. -/
def rangeLevels (sym : String) (cs : List Char) : List Level :=
  (findIter rangeRE cs).flatMap fun m =>
    match m.2.2 with
    | [g1, g2] =>
      match parseDec g1, parseDec g2 with
      | some p1, some p2 => rangeMatchLevels sym p1 p2
      | _, _ => []
    | _ => []

/-- Breakout-range levels (two, at each bound as captured). -/
def breakoutLevels (sym : String) (cs : List Char) : List Level :=
  (findIter breakoutRE cs).flatMap fun m =>
    match m.2.2 with
    | [g1, g2] =>
      match parseDec g1, parseDec g2 with
      | some p1, some p2 =>
        if boundsOk p1 && boundsOk p2 then
          [{ symbol := sym, type := "breakout", price := p1,
             notes := "Breakout level: $" ++ pyFloatStr p1 ++ " - $" ++ pyFloatStr p2 },
           { symbol := sym, type := "breakout", price := p2,
             notes := "Breakout level: $" ++ pyFloatStr p1 ++ " - $" ++ pyFloatStr p2 }]
        else []
      | _, _ => []
    | _ => []

/-- Bounce levels: one `support` level at the first bound only. -/
def bounceLevels (sym : String) (cs : List Char) : List Level :=
  (findIter bounceRE cs).flatMap fun m =>
    match m.2.2 with
    | [g1, g2] =>
      match parseDec g1, parseDec g2 with
      | some p1, some p2 =>
        if boundsOk p1 && boundsOk p2 then
          [{ symbol := sym, type := "support", price := p1,
             notes := "Bounced from $" ++ pyFloatStr p1 }]
        else []
      | _, _ => []
    | _ => []

/-- Resistance levels. -/
def resistanceLevels (sym : String) (cs : List Char) : List Level :=
  (findIter resistanceRE cs).filterMap fun m =>
    (m.2.2.head?.bind parseDec).bind fun p =>
      if boundsOk p then
        some { symbol := sym, type := "resistance", price := p,
               notes := pyStrip (matchText cs m.1 m.2.1) }
      else none

/-- High-of levels. -/
def highLevels (sym : String) (cs : List Char) : List Level :=
  (findIter highRE cs).filterMap fun m =>
    (m.2.2.head?.bind parseDec).bind fun p =>
      if boundsOk p then
        some { symbol := sym, type := "resistance", price := p,
               notes := "High of $" ++ pyFloatStr p }
      else none

/-- All level patterns for one confirmed symbol, in source order. -/
def levelsForSymbol (sym : String) (text : String) : List Level :=
  ptLevels sym text.data ++ waveLevels sym text.data ++ fibLevels sym text.data ++
    rangeLevels sym text.data ++ breakoutLevels sym text.data ++
    bounceLevels sym text.data ++ resistanceLevels sym text.data ++
    highLevels sym text.data

/-- The stop-list of common words and non-ticker jargon (the source set
literal, including its duplicated `'WAS'`). -/
def excludedWords : List String :=
  ["THE", "AND", "OR", "BUT", "FOR", "NOT", "ARE", "WAS", "WE", "YOU", "ALL",
   "CAN", "HER", "WAS", "ONE", "OUR", "OUT", "DAY", "GET", "HAS", "HIM",
   "HIS", "HOW", "MAN", "NEW", "NOW", "OLD", "SEE", "TWO", "WAY", "WHO",
   "BOY", "DID", "ITS", "LET", "PUT", "SAY", "SHE", "TOO", "USE", "FROM",
   "DATE", "SUBJECT", "REPLY", "TO", "EMAIL", "VIEW", "APP", "LIKE", "SHARE",
   "COMMENT", "POST", "SENT", "BEGIN", "MESSAGE", "FORWARDED", "DCA", "WAVE",
   "FEB", "JAN", "MAR", "APR", "MAY", "JUN", "JUL", "AUG", "SEP", "OCT",
   "NOV", "DEC", "THIS", "HAVE", "BEEN", "ONCE", "THAT", "WITH", "WILL",
   "MUST", "JUST", "BACK", "THEN", "NEXT", "MORE", "ALSO", "HERE", "VERY",
   "MA", "WMA", "PT", "FIB", "NYC", "US", "OK", "SF", "CA"]

/-- The commodity fallback names, in scan order. -/
def commodities : List String :=
  ["PALLADIUM", "GOLD", "SILVER", "PLATINUM", "COPPER", "OIL", "CRUDE"]

/-- `re.findall(r'\$([A-Z]{2,5})\b', email_content)`. -/
def dollarSymbols (text : String) : List String :=
  (findallG1 symRE text.data).map fun g => ⟨g⟩

/-- Python `hay.find(needle)` (char index of first occurrence). -/
def strFindAux (needle : List Char) : List Char → Nat → Option Nat
  | [], i => if needle.isPrefixOf [] then some i else none
  | c :: t, i => if needle.isPrefixOf (c :: t) then some i else strFindAux needle t (i + 1)

/-- The commodity fallback: the first commodity present in the uppercased
text whose first occurrence is within the first 500 characters; a
commodity occurring only later does not stop the scan. -/
def commodityScan (up : List Char) : List String :=
  match commodities.find? (fun c =>
    match strFindAux c.data up 0 with
    | some i => decide (i < 500)
    | none => false) with
  | some c => [c]
  | none => []

/-- Python `sorted(list(set(l)))` for strings. -/
def pySortedSet (l : List String) : List String := l.dedup.insertionSort (· ≤ ·)

/-- The dollar symbols surviving the stop-list filter. -/
def dollarFiltered (text : String) : List String :=
  (dollarSymbols text).filter fun s => decide (s ∉ excludedWords)

/-- The symbol extraction of `parse_with_regex`: filtered dollar symbols,
else the commodity fallback; deduplicated and sorted either way. -/
def extractSymbols (text : String) : List String :=
  pySortedSet
    (if (dollarFiltered text).isEmpty then commodityScan (pyUpper text).data
     else dollarFiltered text)

/-- The keyword set marking a strategic line. -/
def strategicKeywords : List String :=
  ["plan:", "strategy", "objective", "low risk entry", "accumulate",
   "wave 3", "wave 5", "long term", "short term", "must", "should consider"]

/-- The strategic-note extraction: keep stripped non-empty lines whose
lowercase form contains a strategic keyword, joined by newlines. -/
def extractNotes (text : String) : String :=
  let kept := (splitOnChar '\n' text.data).filterMap fun lcs =>
    let ls := pyStrip ⟨lcs⟩
    if ls.data.isEmpty then none
    else if strategicKeywords.any (fun k => pyIn k (pyLower ls)) then some ls
    else none
  if kept.isEmpty then "" else String.intercalate "\n" kept

/-- The dedup key of a level. -/
def levelKey (l : Level) : String × String × ℚ := (l.symbol, l.type, l.price)

/-- The `seen`-set dedup loop of `parse_with_regex`. -/
def dedupLevelsAux : List (String × String × ℚ) → List Level → List Level
  | _, [] => []
  | seen, l :: rest =>
    if levelKey l ∈ seen then dedupLevelsAux seen rest
    else l :: dedupLevelsAux (levelKey l :: seen) rest

/-- Remove duplicate levels, first occurrence wins. -/
def dedupLevels (lvls : List Level) : List Level := dedupLevelsAux [] lvls

/-- The level list before deduplication: every pattern family, run for
every extracted symbol, in source order. -/
def rawLevels (text : String) : List Level :=
  (extractSymbols text).flatMap fun s => levelsForSymbol s text

/-- The result dictionary of `parse_with_regex`. -/
structure ExtractionResult where
  symbols : List String
  levels : List Level
  notes : String
  raw_content : String
  deriving DecidableEq, Repr

/-- `email_parser.parse_with_regex`. -/
def parseWithRegex (text : String) : ExtractionResult :=
  { symbols := extractSymbols text
    levels := dedupLevels (rawLevels text)
    notes := extractNotes text
    raw_content := text }

/-! ## Concrete inputs used by the claim theorems -/

/-- Concrete inputs of the scorer test vector: the TLI data. -/
def c1Tli : TliData :=
  { recommendation := some "buy", target_price := some 130, stop_loss := some 90,
    notes := none, confidence := none }

/-- Concrete inputs of the scorer test vector: the market snapshot. -/
def c1Market : MarketData := { emptyMarketData with current_price := some 100 }

/-- Concrete inputs of the scorer test vector: the technical snapshot. -/
def c1Tech : TechData :=
  { rsi := some 25, macd_signal := "oversold", ma_50 := some 95, ma_200 := none,
    trend := "neutral" }

/-- The all-`None` TLI input used to refute claim C2. -/
def c2Tli : TliData :=
  { recommendation := some "wait", target_price := none, stop_loss := none,
    notes := none, confidence := none }

/-- An Alpha Vantage response whose parsed price is the falsy `0.0` (the
source default when `'05. price'` is absent) but whose change percent and
volume are set: the gate lets Finnhub run and overwrite. -/
def c9AV : AVData := { price := 0, changePct := 5, volume := 100 }

/-- A Finnhub quote supplying a current price but no `dp` key. -/
def c9Finn : FinnData :=
  { quote := some { c := some 1, dp := none, h := none, l := none }, metric := none }

/-- An Alpha Vantage response with a truthy price, for the C9 witness. -/
def c9AVGood : AVData := { price := 10, changePct := 2, volume := 7 }

/-- A parsed result whose notes carry sell language next to the phrase
`Long Term`, used to witness the substring-containment claim. -/
def c10Parsed : ParsedData :=
  { levels := [], notes := some "Sell now, but Long Term accumulate" }

set_option maxRecDepth 10000

/-! ## Helper lemmas -/

theorem pyIn_iff (needle hay : String) :
    pyIn needle hay = true ↔ needle.data <:+: hay.data := by
  simp [pyIn]

theorem recAdjust_cases (r : String) :
    recAdjust r = 15 ∨ recAdjust r = -15 ∨ recAdjust r = 0 := by
  unfold recAdjust; split_ifs <;> simp

theorem foldl_levelStep_fixed (lvls : List Level) (acc : TliData) :
    (lvls.foldl levelStep acc).recommendation = acc.recommendation ∧
    (lvls.foldl levelStep acc).confidence = acc.confidence := by
  induction lvls generalizing acc with
  | nil => exact ⟨rfl, rfl⟩
  | cons l ls ih =>
    have hstep : (levelStep acc l).recommendation = acc.recommendation ∧
        (levelStep acc l).confidence = acc.confidence := by
      simp only [levelStep]
      split_ifs <;> exact ⟨rfl, rfl⟩
    exact ⟨((ih (levelStep acc l)).1).trans hstep.1,
           ((ih (levelStep acc l)).2).trans hstep.2⟩

theorem mem_pySortedSet {s : String} {l : List String} :
    s ∈ pySortedSet l ↔ s ∈ l := by
  unfold pySortedSet
  rw [(List.perm_insertionSort _ _).mem_iff, List.mem_dedup]

theorem commodityScan_subset (up : List Char) (s : String)
    (h : s ∈ commodityScan up) : s ∈ commodities := by
  unfold commodityScan at h
  split at h
  next c heq =>
    simp only [List.mem_singleton] at h
    subst h
    exact List.mem_of_find?_eq_some heq
  next => simp at h

theorem commodities_not_excluded : ∀ c ∈ commodities, c ∉ excludedWords := by decide

theorem extractSymbols_props (text : String) :
    (∀ s ∈ extractSymbols text, s ∉ excludedWords) ∧
    List.Sorted (· ≤ ·) (extractSymbols text) ∧ (extractSymbols text).Nodup := by
  refine ⟨?_, List.sorted_insertionSort _ _,
    ((List.perm_insertionSort _ _).nodup_iff).mpr (List.nodup_dedup _)⟩
  intro s hs
  have hs' := mem_pySortedSet.mp hs
  by_cases hd : (dollarFiltered text).isEmpty
  · rw [if_pos hd] at hs'
    exact commodities_not_excluded s (commodityScan_subset _ _ hs')
  · rw [if_neg hd] at hs'
    exact of_decide_eq_true (List.mem_filter.mp hs').2

theorem dedupLevelsAux_sublist (seen : List (String × String × ℚ)) (l : List Level) :
    (dedupLevelsAux seen l).Sublist l := by
  induction l generalizing seen with
  | nil => simp [dedupLevelsAux]
  | cons x xs ih =>
    simp only [dedupLevelsAux]
    split_ifs with h
    · exact (ih seen).trans (List.sublist_cons_self x xs)
    · exact (ih _).cons₂ x

theorem dedupLevelsAux_key_notin (seen : List (String × String × ℚ)) (l : List Level) :
    ∀ x ∈ dedupLevelsAux seen l, levelKey x ∉ seen := by
  induction l generalizing seen with
  | nil => simp [dedupLevelsAux]
  | cons y ys ih =>
    simp only [dedupLevelsAux]
    split_ifs with h
    · exact ih seen
    · intro x hx
      rcases List.mem_cons.mp hx with rfl | hx
      · exact h
      · exact fun hs => ih (levelKey y :: seen) x hx (List.mem_cons_of_mem _ hs)

theorem dedupLevelsAux_pairwise (seen : List (String × String × ℚ)) (l : List Level) :
    (dedupLevelsAux seen l).Pairwise (fun a b => levelKey a ≠ levelKey b) := by
  induction l generalizing seen with
  | nil => simp [dedupLevelsAux]
  | cons y ys ih =>
    simp only [dedupLevelsAux]
    split_ifs with h
    · exact ih seen
    · refine List.Pairwise.cons ?_ (ih _)
      intro b hb heq
      exact dedupLevelsAux_key_notin (levelKey y :: seen) ys b hb
        (heq ▸ List.mem_cons_self _ _)

theorem dedupLevelsAux_find (seen : List (String × String × ℚ)) (l : List Level) :
    ∀ x ∈ dedupLevelsAux seen l,
      l.find? (fun y => decide (levelKey y = levelKey x)) = some x := by
  induction l generalizing seen with
  | nil => simp [dedupLevelsAux]
  | cons y ys ih =>
    intro x hx
    simp only [dedupLevelsAux] at hx
    by_cases h : levelKey y ∈ seen
    · rw [if_pos h] at hx
      have hne : levelKey y ≠ levelKey x := by
        intro he
        exact dedupLevelsAux_key_notin seen ys x hx (he ▸ h)
      rw [List.find?_cons_of_neg _ (by simpa using hne)]
      exact ih seen x hx
    · rw [if_neg h] at hx
      rcases List.mem_cons.mp hx with rfl | hx
      · rw [List.find?_cons_of_pos _ (by simp)]
      · have hne : levelKey y ≠ levelKey x := by
          intro he
          exact dedupLevelsAux_key_notin (levelKey y :: seen) ys x hx
            (he ▸ List.mem_cons_self _ _)
        rw [List.find?_cons_of_neg _ (by simpa using hne)]
        exact ih (levelKey y :: seen) x hx

theorem dedupLevelsAux_covers (seen : List (String × String × ℚ)) (l : List Level) :
    ∀ x ∈ l, levelKey x ∈ seen ∨
      ∃ x', x' ∈ dedupLevelsAux seen l ∧ levelKey x' = levelKey x := by
  induction l generalizing seen with
  | nil => simp
  | cons y ys ih =>
    intro x hx
    simp only [dedupLevelsAux]
    rcases List.mem_cons.mp hx with rfl | hx
    · split_ifs with h
      · left; exact h
      · right; exact ⟨x, List.mem_cons_self _ _, rfl⟩
    · split_ifs with h
      · exact ih seen x hx
      · rcases ih (levelKey y :: seen) x hx with hs | ⟨x', hx', he⟩
        · rcases List.mem_cons.mp hs with he | hs
          · right; exact ⟨y, List.mem_cons_self _ _, he.symm⟩
          · left; exact hs
        · right; exact ⟨x', List.mem_cons_of_mem _ hx', he⟩

/-! ## Claim theorems -/

/-- Claim C1: on the input current_price=100, target_price=130,
recommendation='buy', rsi=25, ma_50=95, macd_signal='oversold',
stop_loss=90, the cross-validation scorer accumulates
50+15+10+10+5+8+10 = 108, clamps the agreement score to 100 and
classifies the overall recommendation as strong_buy. -/
theorem c1_concrete_scorer :
    crossScore c1Tli c1Market c1Tech = 108 ∧
    (crossValidate "AMD" c1Tli c1Market c1Tech).agreement_score = 100 ∧
    (crossValidate "AMD" c1Tli c1Market c1Tech).overall_recommendation = "strong_buy" := by
  with_unfolding_all decide

/-- Claim C2 counterexample: when every market field is `None`, rsi is
`None` and macd_signal is `'neutral'` but no exception occurred, the
record is produced by `_cross_validate`, not by the fallback: a raw
recommendation of `'wait'` is reclassified to `'hold'` (contradicting
"verbatim"), and the flags list is empty (contradicting "exactly one
external-data-unavailable entry"). -/
theorem c2_counterexample :
    (crossValidate "AAPL" c2Tli emptyMarketData emptyTechData).tli_recommendation
        = "wait" ∧
    (crossValidate "AAPL" c2Tli emptyMarketData emptyTechData).overall_recommendation
        = "hold" ∧
    (crossValidate "AAPL" c2Tli emptyMarketData emptyTechData).flags = [] := by
  with_unfolding_all decide

/-- Claim C2 (amended): with no market/technical data at all and no
exception, `_cross_validate` runs: the flags list is empty, the agreement
score is 50 plus the recommendation bias (±15 or 0, never clamped), and
the overall recommendation is the score classification of that total (so
`'wait'` and `'hold'` both come out as `'hold'`). The record the claim
describes — verbatim raw recommendation, exactly one
external-data-unavailable flag, agreement 50 — is the one
`_fallback_analysis` produces, which is returned only when an exception
was raised. -/
theorem c2_no_data_path (symbol : String) (tli : TliData) :
    (crossValidate symbol tli emptyMarketData emptyTechData).flags = [] ∧
    (crossValidate symbol tli emptyMarketData emptyTechData).agreement_score =
      50 + recAdjust (pyLower (tli.recommendation.getD "hold")) ∧
    (crossValidate symbol tli emptyMarketData emptyTechData).overall_recommendation =
      classifyScore (50 + recAdjust (pyLower (tli.recommendation.getD "hold"))) ∧
    (fallbackAnalysis symbol tli).overall_recommendation = tli.recommendation.getD "hold" ∧
    (fallbackAnalysis symbol tli).flags = ["External data unavailable - TLI analysis only"] ∧
    (fallbackAnalysis symbol tli).agreement_score = 50 := by
  have hc : crossScore tli emptyMarketData emptyTechData
      = 50 + recAdjust (pyLower (tli.recommendation.getD "hold")) := by
    unfold crossScore
    simp [targetAdjust, rsiAdjust, maAdjust, macdAdjust, rrAdjust,
      emptyMarketData, emptyTechData]
  refine ⟨rfl, ?_, ?_, rfl, rfl, rfl⟩
  · show max 0 (min 100 (crossScore tli emptyMarketData emptyTechData)) = _
    rw [hc]
    rcases recAdjust_cases (pyLower (tli.recommendation.getD "hold")) with h | h | h <;>
      rw [h] <;> decide
  · show classifyScore (crossScore tli emptyMarketData emptyTechData) = _
    rw [hc]

/-- Claim C4 counterexample: rsi = 0.0 is non-None, lies in [0,100] and is
below 30, so the claim prescribes +10 and a flag; the code's `if rsi:`
truthiness guard skips the whole rule, contributing 0 and no flag. -/
theorem c4_rsi_zero_counterexample :
    rsiAdjust (some 0) = (0, []) ∧ (0:ℚ) ≤ 0 ∧ (0:ℚ) ≤ 100 ∧ (0:ℚ) < 30 := by
  refine ⟨?_, by norm_num, by norm_num, by norm_num⟩
  with_unfolding_all rfl

/-- Claim C4 (amended): for every scorer input whose rsi value is truthy
(non-None **and nonzero**), the RSI-band rule contributes exactly +10 with
a flag when rsi < 30, −10 with a flag when rsi > 70, +5 with no flag when
40 ≤ rsi ≤ 60, and 0 otherwise; when rsi = 0.0 the rule contributes 0 and
no flag. -/
theorem c4_rsi_band (r : ℚ) (h0 : r ≠ 0) :
    (r < 30 → rsiAdjust (some r) = (10, ["RSI indicates oversold conditions (bullish)"])) ∧
    (r > 70 → rsiAdjust (some r) = (-10, ["RSI indicates overbought conditions (bearish)"])) ∧
    (40 ≤ r ∧ r ≤ 60 → rsiAdjust (some r) = (5, [])) ∧
    (¬ r < 30 ∧ ¬ r > 70 ∧ ¬ (40 ≤ r ∧ r ≤ 60) → rsiAdjust (some r) = (0, [])) := by
  simp only [rsiAdjust]
  refine ⟨fun h1 => ?_, fun h1 => ?_, fun h1 => ?_, fun h1 => ?_⟩
  · rw [if_pos h0, if_pos h1]
  · rw [if_pos h0, if_neg (by linarith), if_pos h1]
  · rw [if_pos h0, if_neg (by linarith [h1.1]), if_neg (by linarith [h1.2]), if_pos h1]
  · rw [if_pos h0, if_neg h1.1, if_neg h1.2.1, if_neg h1.2.2]

/-- Witness for `c4_rsi_band` at the concrete rsi 25. -/
theorem c4_rsi_band_witness :
    rsiAdjust (some 25) = (10, ["RSI indicates oversold conditions (bullish)"]) :=
  (c4_rsi_band 25 (by norm_num)).1 (by norm_num)

/-- Claim C7: `analyze_stock` is total over the modelled outcomes of its
data-fetch steps — a successful fetch is cross-validated and any raised
exception yields the fallback record, whose market and technical fields
are all null, whose macd_signal is `'neutral'`, whose flags hold the single
external-data-unavailable entry, whose agreement score is exactly 50 and
whose overall recommendation is the raw tli recommendation, not a
threshold reclassification. -/
theorem c7_analyze_stock_fallback (symbol : String) (tli : TliData) :
    (∀ m t, analyzeStock symbol tli (Except.ok (m, t)) = crossValidate symbol tli m t) ∧
    analyzeStock symbol tli (Except.error ()) = fallbackAnalysis symbol tli ∧
    (fallbackAnalysis symbol tli).current_price = none ∧
    (fallbackAnalysis symbol tli).price_change_pct = none ∧
    (fallbackAnalysis symbol tli).volume = none ∧
    (fallbackAnalysis symbol tli).market_cap = none ∧
    (fallbackAnalysis symbol tli).pe_ratio = none ∧
    (fallbackAnalysis symbol tli).rsi = none ∧
    (fallbackAnalysis symbol tli).ma_50 = none ∧
    (fallbackAnalysis symbol tli).ma_200 = none ∧
    (fallbackAnalysis symbol tli).macd_signal = "neutral" ∧
    (fallbackAnalysis symbol tli).flags = ["External data unavailable - TLI analysis only"] ∧
    (fallbackAnalysis symbol tli).agreement_score = 50 ∧
    (fallbackAnalysis symbol tli).overall_recommendation = tli.recommendation.getD "hold" :=
  ⟨fun _ _ => rfl, rfl, rfl, rfl, rfl, rfl, rfl, rfl, rfl, rfl, rfl, rfl, rfl, rfl⟩

/-- Claim C9 counterexample: Alpha Vantage supplies change-percent 5 (the
first non-null value for that field) together with the falsy price 0.0;
the Finnhub gate then fires and overwrites `price_change_pct` with its own
missing `dp`, i.e. `None` — the final field is not the first non-null
value seen in provider priority order. -/
theorem c9_counterexample :
    (getMarketData (some c9AV) (some c9Finn) none).price_change_pct = none ∧
    (marketMergeSpec (some c9AV) (some c9Finn) none).price_change_pct = some 5 ∧
    (getMarketData (some c9AV) (some c9Finn) none).current_price = some 1 := by
  refine ⟨?_, ?_, ?_⟩ <;> with_unfolding_all rfl

/-- Claim C9 (amended): providers are tried in priority order gated only on
the truthiness of `current_price`: when an earlier provider supplies a
nonzero price, no later provider's data is consulted at all; when the gate
does fire, the later provider assigns every field it touches wholesale
(possibly with null), rather than per-field first-non-null merging. -/
theorem c9_priority_gate (a : AVData) (fh : Option FinnData) (yh : Option YahooData)
    (h : a.price ≠ 0) :
    getMarketData (some a) fh yh = getMarketData (some a) none none := by
  unfold getMarketData
  simp [pyTruthy, h, emptyMarketData]

/-- Witness for `c9_priority_gate`: with a truthy Alpha Vantage price the
Finnhub data is ignored. -/
theorem c9_priority_gate_witness :
    getMarketData (some c9AVGood) (some c9Finn) none
      = getMarketData (some c9AVGood) none none :=
  c9_priority_gate c9AVGood (some c9Finn) none (by norm_num [c9AVGood])

/-- Claim C3: for every input text, the symbol extraction of the regex
parser returns a list with no stop-listed word, lexicographically sorted
and duplicate-free; and the input `"$THE $AMD $NVDA"` yields exactly
`[AMD, NVDA]`, with `THE` filtered even though it matches the
dollar-prefixed 2–5 uppercase-letter pattern. -/
theorem c3_symbol_extraction :
    (∀ text : String,
      (∀ s ∈ (parseWithRegex text).symbols, s ∉ excludedWords) ∧
      List.Sorted (· ≤ ·) (parseWithRegex text).symbols ∧
      (parseWithRegex text).symbols.Nodup) ∧
    (parseWithRegex "$THE $AMD $NVDA").symbols = ["AMD", "NVDA"] ∧
    "THE" ∈ dollarSymbols "$THE $AMD $NVDA" ∧ "THE" ∈ excludedWords := by
  refine ⟨fun text => extractSymbols_props text, ?_, ?_, by decide⟩
  · with_unfolding_all decide
  · with_unfolding_all decide

/-- Witness for `c3_symbol_extraction`, discharging the membership
hypothesis of its universally quantified part at a concrete symbol. -/
theorem c3_symbol_extraction_witness : "AMD" ∉ excludedWords :=
  (c3_symbol_extraction.1 "$THE $AMD $NVDA").1 "AMD" (by with_unfolding_all decide)

/-- Claim C5: for every input text, the deduplicated level sequence of the
regex parser has pairwise distinct (symbol, type, price) keys, is a
subsequence of the raw scan-order level list (so relative order is the
order of first occurrence), each surviving entry is the first raw entry
with its key, and every raw key survives. -/
theorem c5_level_dedup (text : String) :
    ((parseWithRegex text).levels.Pairwise fun a b => levelKey a ≠ levelKey b) ∧
    (parseWithRegex text).levels.Sublist (rawLevels text) ∧
    (∀ lv ∈ (parseWithRegex text).levels,
      (rawLevels text).find? (fun y => decide (levelKey y = levelKey lv)) = some lv) ∧
    (∀ lv ∈ rawLevels text,
      ∃ lv', lv' ∈ (parseWithRegex text).levels ∧ levelKey lv' = levelKey lv) := by
  refine ⟨dedupLevelsAux_pairwise [] _, dedupLevelsAux_sublist [] _,
    fun lv hlv => dedupLevelsAux_find [] _ lv hlv, fun lv hlv => ?_⟩
  rcases dedupLevelsAux_covers [] (rawLevels text) lv hlv with h | h
  · simp at h
  · exact h

/-- Witness for `c5_level_dedup` at a concrete text and level. -/
theorem c5_level_dedup_witness :
    (rawLevels "$AMD high of $30").find?
        (fun y => decide (levelKey y =
          levelKey { symbol := "AMD", type := "resistance", price := 30,
                     notes := "High of $30.0" })) =
      some { symbol := "AMD", type := "resistance", price := 30, notes := "High of $30.0" } :=
  (c5_level_dedup "$AMD high of $30").2.2.1 _ (by with_unfolding_all decide)

/-- Claim C6: the text `"Buy zone range between $45 and $50"` with
confirmed symbol AMD produces exactly two buy_zone levels, at 45.0 and
50.0, both carrying one identical notes string citing both bounds; and in
general each matched range phrase yields one level at min(X,Y) and one at
max(X,Y) sharing one notes string. -/
theorem c6_buy_zone_range :
    levelsForSymbol "AMD" "Buy zone range between $45 and $50" =
      [{ symbol := "AMD", type := "buy_zone", price := 45,
         notes := "Buy Zone: $45.0 - $50.0" },
       { symbol := "AMD", type := "buy_zone", price := 50,
         notes := "Buy Zone: $45.0 - $50.0" }] ∧
    (∀ (sym : String) (p1 p2 : ℚ),
      1 / 100 < p1 → p1 < 100000 → 1 / 100 < p2 → p2 < 100000 →
      ∃ n, rangeMatchLevels sym p1 p2 =
        [{ symbol := sym, type := "buy_zone", price := min p1 p2, notes := n },
         { symbol := sym, type := "buy_zone", price := max p1 p2, notes := n }]) := by
  constructor
  · with_unfolding_all decide
  · intro sym p1 p2 h1 h2 h3 h4
    refine ⟨"Buy Zone: $" ++ pyFloatStr (min p1 p2) ++ " - $" ++ pyFloatStr (max p1 p2), ?_⟩
    have hb : (boundsOk p1 && boundsOk p2) = true := by
      simp only [boundsOk, Bool.and_eq_true, decide_eq_true_eq]
      exact ⟨⟨h1, h2⟩, h3, h4⟩
    unfold rangeMatchLevels
    rw [if_pos hb]

/-- Witness for `c6_buy_zone_range`, discharging the bounds hypotheses of
its general part at the concrete prices 45 and 50. -/
theorem c6_buy_zone_range_witness :
    ∃ n, rangeMatchLevels "NVDA" 45 50 =
      [{ symbol := "NVDA", type := "buy_zone", price := min 45 50, notes := n },
       { symbol := "NVDA", type := "buy_zone", price := max 45 50, notes := n }] :=
  c6_buy_zone_range.2 "NVDA" 45 50 (by norm_num) (by norm_num) (by norm_num) (by norm_num)

/-- Claim C8: the recommendation resolver assigns exactly one class by
checking the lowercased notes against keyword families in fixed priority —
buy (escalating confidence to high exactly when strong/aggressive also
appears), else sell, else wait, else the default hold; a later family is
never consulted once an earlier one matched. -/
theorem c8_keyword_priority (parsed : ParsedData) (symbol : String) :
    ((extractTliRecommendation parsed symbol).recommendation = some "buy"
        ↔ anyIn buyWords (pyLower (parsed.notes.getD "")) = true) ∧
    ((extractTliRecommendation parsed symbol).recommendation = some "sell"
        ↔ anyIn buyWords (pyLower (parsed.notes.getD "")) = false ∧
          anyIn sellWords (pyLower (parsed.notes.getD "")) = true) ∧
    ((extractTliRecommendation parsed symbol).recommendation = some "wait"
        ↔ anyIn buyWords (pyLower (parsed.notes.getD "")) = false ∧
          anyIn sellWords (pyLower (parsed.notes.getD "")) = false ∧
          anyIn waitWords (pyLower (parsed.notes.getD "")) = true) ∧
    ((extractTliRecommendation parsed symbol).recommendation = some "hold"
        ↔ anyIn buyWords (pyLower (parsed.notes.getD "")) = false ∧
          anyIn sellWords (pyLower (parsed.notes.getD "")) = false ∧
          anyIn waitWords (pyLower (parsed.notes.getD "")) = false) ∧
    ((extractTliRecommendation parsed symbol).confidence = some "high"
        ↔ anyIn buyWords (pyLower (parsed.notes.getD "")) = true ∧
          (pyIn "strong" (pyLower (parsed.notes.getD "")) ||
           pyIn "aggressive" (pyLower (parsed.notes.getD ""))) = true) := by
  have hf := foldl_levelStep_fixed (parsed.levels.filter fun l => l.symbol = symbol)
    { recommendation := some "hold", target_price := none, stop_loss := none,
      notes := some (parsed.notes.getD ""), confidence := some "medium" }
  simp only [extractTliRecommendation]
  cases hb : anyIn buyWords (pyLower (parsed.notes.getD "")) with
  | true =>
    cases hsa : (pyIn "strong" (pyLower (parsed.notes.getD "")) ||
        pyIn "aggressive" (pyLower (parsed.notes.getD ""))) with
    | true => simp [hb, hsa, hf.1, hf.2]
    | false => simp [hb, hsa, hf.1, hf.2]
  | false =>
    cases hs : anyIn sellWords (pyLower (parsed.notes.getD "")) with
    | true => simp [hb, hs, hf.1, hf.2]
    | false =>
      cases hw : anyIn waitWords (pyLower (parsed.notes.getD "")) with
      | true => simp [hb, hs, hw, hf.1, hf.2]
      | false => simp [hb, hs, hw, hf.1, hf.2]

/-- Claim C10: keyword detection is substring containment, so notes whose
lowercase form contains the phrase `long term` (a strategic-note keyword)
always resolve to `buy` — `long term` contains the buy keyword `long` —
regardless of any sell, wait or hold language elsewhere. -/
theorem c10_long_term_buy (parsed : ParsedData) (symbol : String)
    (h : "long term".data <:+: (pyLower (parsed.notes.getD "")).data) :
    (extractTliRecommendation parsed symbol).recommendation = some "buy" ∧
    "long term" ∈ strategicKeywords := by
  refine ⟨?_, by decide⟩
  have hl : "long".data <:+: (pyLower (parsed.notes.getD "")).data :=
    List.IsInfix.trans ⟨[], " term".data, rfl⟩ h
  have hb : anyIn buyWords (pyLower (parsed.notes.getD "")) = true := by
    refine List.any_eq_true.mpr ⟨"long", by simp [buyWords], ?_⟩
    exact (pyIn_iff _ _).mpr hl
  simp [extractTliRecommendation, hb]

/-- Witness for `c10_long_term_buy`: notes with sell language and the
phrase `Long Term` still resolve to buy. -/
theorem c10_long_term_buy_witness :
    (extractTliRecommendation c10Parsed "AMD").recommendation = some "buy" :=
  (c10_long_term_buy c10Parsed "AMD" (by with_unfolding_all decide)).1
